import Mathlib

/-!
Shallow embedding of the media-analysis pipeline of the Image-Analysis
repository and verification of its specification, covering:

* `formatTime` and `extractFramesFromVideo` from `src/utils/mediaUtils.ts`;
* `withExponentialBackoff` from the retry utility (`src/unnamed/part_000`);
* `GeminiService.analyzeImage` and `GeminiService.analyzeVideoFrames` from
  `src/services/geminiService.ts`;
* the bounding-box overlay projection and the colour assignment of
  `src/components/ImageAnalyzer.tsx` and of the `WebcamAnalyzer` component
  (`src/unnamed/part_000`);
* the two-tier camera negotiation of `WebcamAnalyzer.startCamera`.

Numbers of the JavaScript runtime are modelled as exact rationals (all values
occurring here are small integers and exact binary fractions, far from any
floating-point rounding), TypeScript type assertions are erased (they have no
runtime effect), and promise-valued fallible operations are modelled as
`Except`-valued functions indexed by invocation count.
-/

namespace ImageAnalysis

/-! ## JavaScript primitives used by the sources -/

/-- JavaScript truncation toward zero of a number (`Math.trunc`), the rounding
underlying the `%` operator on numbers. -/
def jsTrunc (q : ℚ) : ℤ := if 0 ≤ q then ⌊q⌋ else -⌊-q⌋

/-- JavaScript's `%` on numbers: the remainder keeps the sign of the dividend,
`a % b = a - b * trunc(a / b)`. -/
def jsMod (a b : ℚ) : ℚ := a - b * (jsTrunc (a / b) : ℚ)

/-- JavaScript `String.prototype.padStart(n, c)`: pad on the left with `c` up
to length `n`; a string that is already long enough is returned unchanged. -/
def padStart (s : String) (n : ℕ) (c : Char) : String :=
  String.mk (List.replicate (n - s.length) c) ++ s

/-- The JavaScript `x || y` idiom on an optional string (`undefined`, `null`
and the empty string are falsy, any other string is truthy). -/
def textOrFallback : Option String → String → String
  | none, fb => fb
  | some s, fb => if s = "" then fb else s

/-! ## `formatTime` (src/utils/mediaUtils.ts, lines 18-22)

```ts
const mins = Math.floor(seconds / 60);
const secs = Math.floor(seconds % 60);
return `${mins.toString().padStart(2, '0')}:${secs.toString().padStart(2, '0')}`;
```
-/

/-- `formatTime` from `src/utils/mediaUtils.ts`. -/
def formatTime (seconds : ℚ) : String :=
  padStart (toString ⌊seconds / 60⌋) 2 '0' ++ ":" ++
    padStart (toString ⌊jsMod seconds 60⌋) 2 '0'

theorem toString_intCast (n : ℕ) : toString ((n : ℤ)) = toString n := rfl

/-- Closed form of `formatTime` on a non-negative input: both components are
rendered from the integer part of the input, minutes by natural division by 60
(no wrap-around) and seconds by the remainder, each zero-padded to width 2. -/
theorem formatTime_nonneg_eq (s : ℚ) (hs : 0 ≤ s) :
    formatTime s =
      padStart (toString (⌊s⌋₊ / 60)) 2 '0' ++ ":" ++
        padStart (toString (⌊s⌋₊ % 60)) 2 '0' := by
  have h1 : (0:ℚ) ≤ s / 60 := by positivity
  have hmins : ⌊s / 60⌋ = ((⌊s⌋₊ / 60 : ℕ) : ℤ) := by
    rw [← Int.natCast_floor_eq_floor h1]
    norm_cast
    rw [show (60:ℚ) = ((60:ℕ):ℚ) by norm_num, Nat.floor_div_nat]
  have hsecs : ⌊jsMod s 60⌋ = ((⌊s⌋₊ % 60 : ℕ) : ℤ) := by
    have h2 : jsMod s 60 = s - ((60 * (⌊s⌋₊ / 60) : ℕ) : ℚ) := by
      rw [jsMod, jsTrunc, if_pos h1, hmins]
      norm_cast
    rw [h2, Int.floor_sub_nat, ← Int.natCast_floor_eq_floor hs]
    omega
  simp only [formatTime]
  rw [hmins, hsecs, toString_intCast, toString_intCast]

/-! ## `startCamera` of the `WebcamAnalyzer` component (src/unnamed/part_000)

The two `getUserMedia` attempts are modelled by their outcomes (`hd` for the
HD-constrained attempt, `basic` for the unconstrained one); the browser error
objects carry a `name` and a `message`. -/

/-- A JavaScript `Error`-like value as inspected by `startCamera`'s catch
block: its `name` and `message` fields. -/
structure JsError where
  name : String
  message : String
deriving DecidableEq

/-- The stream negotiation of `startCamera`: request the HD constraint set
first; if it throws, request basic video; if that also throws, rethrow the
error of the basic attempt (`throw basicError`). -/
def negotiateStream {σ : Type} (hd basic : Except JsError σ) : Except JsError σ :=
  match hd with
  | .ok s => .ok s
  | .error _ =>
    match basic with
    | .ok s => .ok s
    | .error e => .error e

/-- The error classification of `startCamera`'s outer catch block: the
user-facing message together with the `permissionDenied` flag. -/
def classifyCameraError (e : JsError) : String × Bool :=
  if e.name = "NotAllowedError" ∨ e.name = "PermissionDeniedError" then
    ("Camera access was denied. Please allow camera access in your browser settings to continue.",
      true)
  else if e.name = "NotFoundError" ∨ e.name = "DevicesNotFoundError" then
    ("No camera found. Please ensure a camera is connected and recognized by your device.",
      false)
  else if e.name = "NotReadableError" ∨ e.name = "TrackStartError" then
    ("Camera is currently in use by another application or OS permission is blocked. Please close other apps using the camera.",
      false)
  else
    (if e.message = "" then "Could not access camera." else e.message, false)

/-- `startCamera` as observed by the caller: either a live stream, or the
error state (message, permission flag) produced from the propagated error. -/
def startCamera {σ : Type} (hd basic : Except JsError σ) : Except (String × Bool) σ :=
  match negotiateStream hd basic with
  | .ok s => .ok s
  | .error e => .error (classifyCameraError e)

/-! ## The bounding-box overlay of `ImageAnalyzer.tsx` (lines 174-202) -/

/-- A detected object's box on the 0-1000 integer scale, in the order
`[ymin, xmin, ymax, xmax]` in which the component destructures `box_2d`. -/
structure Box2d where
  ymin : ℤ
  xmin : ℤ
  ymax : ℤ
  xmax : ℤ
deriving DecidableEq

/-- The overlay geometry computed by `ImageAnalyzer.tsx`: CSS percentages
`top = ymin/10`, `left = xmin/10`, `height = (ymax-ymin)/10`,
`width = (xmax-xmin)/10`. -/
def overlayRect (b : Box2d) : ℚ × ℚ × ℚ × ℚ :=
  ((b.ymin : ℚ) / 10, (b.xmin : ℚ) / 10,
    ((b.ymax : ℚ) - (b.ymin : ℚ)) / 10, ((b.xmax : ℚ) - (b.xmin : ℚ)) / 10)

/-- Modelled from the spec's words, for comparison with `overlayRect`: the
normalized rectangle obtained by dividing each coordinate by 1000. -/
def normalizedBox (b : Box2d) : ℚ × ℚ × ℚ × ℚ :=
  ((b.ymin : ℚ) / 1000, (b.xmin : ℚ) / 1000, (b.ymax : ℚ) / 1000, (b.xmax : ℚ) / 1000)

/-- The inverse scale of the spec's round-trip property: multiply each
normalized coordinate by 1000. -/
def scaleBack (r : ℚ × ℚ × ℚ × ℚ) : ℚ × ℚ × ℚ × ℚ :=
  (r.1 * 1000, r.2.1 * 1000, r.2.2.1 * 1000, r.2.2.2 * 1000)

/-! ## `withExponentialBackoff` (the retry utility in src/unnamed/part_000)

```ts
try { return await fn(); } catch (error) {
  if (retries <= 0) { throw error; }
  await new Promise((resolve) => setTimeout(resolve, delay));
  return withExponentialBackoff(fn, retries - 1, delay * 2);
}
```

The successive invocations of `fn` are modelled by their outcomes `ops k`
(`k` counts invocations of `fn` so far); alongside the final outcome the run
records, in order, the waits (milliseconds) performed before each retry.  The
budget is a natural number: the source only ever calls the function with its
non-negative defaults, and `retries <= 0` is the `retries = 0` case. -/

/-- One run of `withExponentialBackoff`, returning the final outcome and the
list of waits. -/
def backoffRun {ε α : Type} (ops : ℕ → Except ε α) (attempt : ℕ) (retries : ℕ)
    (delay : ℕ) : Except ε α × List ℕ :=
  match ops attempt, retries with
  | .ok v, _ => (.ok v, [])
  | .error e, 0 => (.error e, [])
  | .error _, r + 1 =>
    let p := backoffRun ops (attempt + 1) r (delay * 2)
    (p.1, delay :: p.2)

theorem backoffRun_ok {ε α : Type} {ops : ℕ → Except ε α} {attempt : ℕ} {v : α}
    (h : ops attempt = .ok v) (retries delay : ℕ) :
    backoffRun ops attempt retries delay = (.ok v, []) := by
  rw [backoffRun.eq_def, h]

theorem backoffRun_error_zero {ε α : Type} {ops : ℕ → Except ε α} {attempt : ℕ} {e : ε}
    (h : ops attempt = .error e) (delay : ℕ) :
    backoffRun ops attempt 0 delay = (.error e, []) := by
  rw [backoffRun.eq_def, h]

theorem backoffRun_error_succ {ε α : Type} {ops : ℕ → Except ε α} {attempt : ℕ} {e : ε}
    (h : ops attempt = .error e) (r delay : ℕ) :
    backoffRun ops attempt (r + 1) delay =
      ((backoffRun ops (attempt + 1) r (delay * 2)).1,
        delay :: (backoffRun ops (attempt + 1) r (delay * 2)).2) := by
  rw [backoffRun.eq_def, h]

/-- Whatever the operation does, the recorded waits form the geometric
schedule `delay, 2*delay, 4*delay, ...` — each wait is double the previous
one, with no cap. -/
theorem backoffRun_waits_geometric {ε α : Type} (ops : ℕ → Except ε α) :
    ∀ (r attempt delay : ℕ), ∃ k, k ≤ r ∧
      (backoffRun ops attempt r delay).2 = (List.range k).map (fun i => delay * 2 ^ i) := by
  intro r
  induction r with
  | zero =>
    intro attempt delay
    refine ⟨0, le_refl 0, ?_⟩
    cases h : ops attempt with
    | ok v => rw [backoffRun_ok h]; rfl
    | error e => rw [backoffRun_error_zero h]; rfl
  | succ r ih =>
    intro attempt delay
    cases h : ops attempt with
    | ok v => exact ⟨0, Nat.zero_le _, by rw [backoffRun_ok h]; rfl⟩
    | error e =>
      obtain ⟨k, hk, htail⟩ := ih (attempt + 1) (delay * 2)
      refine ⟨k + 1, by omega, ?_⟩
      rw [backoffRun_error_succ h, htail, List.range_succ_eq_map, List.map_cons,
        List.map_map]
      refine congrArg₂ _ (by ring) (List.map_congr_left fun i _ => ?_)
      simp only [Function.comp_apply, pow_succ]
      ring

/-- C2: with the default budget `retries = 3, delay = 1000`, an operation
failing on its first three invocations and succeeding on the fourth returns
the success value after exactly three delayed retries waiting 1000 ms,
2000 ms and 4000 ms; an operation failing on all four invocations propagates
the error thrown by the fourth invocation unchanged, after the same three
waits; and on any operation the recorded waits are
`delay * 2^0, delay * 2^1, ...` — each wait double the previous one, with no
maximum cap. -/
theorem withExponentialBackoff_schedule {ε α : Type}
    (ops₁ ops₂ : ℕ → Except ε α) (v : α) (errs₁ errs₂ : ℕ → ε)
    (h₁ : ∀ i, i < 3 → ops₁ i = .error (errs₁ i)) (h₂ : ops₁ 3 = .ok v)
    (h₃ : ∀ i, i ≤ 3 → ops₂ i = .error (errs₂ i)) :
    backoffRun ops₁ 0 3 1000 = (.ok v, [1000, 2000, 4000]) ∧
    backoffRun ops₂ 0 3 1000 = (.error (errs₂ 3), [1000, 2000, 4000]) ∧
    ∀ (ops : ℕ → Except ε α) (r attempt delay : ℕ), ∃ k, k ≤ r ∧
      (backoffRun ops attempt r delay).2 =
        (List.range k).map (fun i => delay * 2 ^ i) := by
  refine ⟨?_, ?_, fun ops r attempt delay => backoffRun_waits_geometric ops r attempt delay⟩
  · rw [backoffRun_error_succ (h₁ 0 (by norm_num)),
      backoffRun_error_succ (h₁ 1 (by norm_num)),
      backoffRun_error_succ (h₁ 2 (by norm_num)),
      backoffRun_ok h₂]
  · rw [backoffRun_error_succ (h₃ 0 (by norm_num)),
      backoffRun_error_succ (h₃ 1 (by norm_num)),
      backoffRun_error_succ (h₃ 2 (by norm_num)),
      backoffRun_error_zero (h₃ 3 (by norm_num))]

/-- Witness for C2 at concrete operations: one failing with error `i` on
attempt `i < 3` and returning 42 on attempt 3, one failing with error `i` on
every attempt `i`. -/
theorem withExponentialBackoff_schedule_witness :
    backoffRun (fun i => if i < 3 then (.error i : Except ℕ ℕ) else .ok 42) 0 3 1000 =
      (.ok 42, [1000, 2000, 4000]) ∧
    backoffRun (fun i => (.error i : Except ℕ ℕ)) 0 3 1000 =
      (.error 3, [1000, 2000, 4000]) := by
  have t := withExponentialBackoff_schedule
    (fun i => if i < 3 then (.error i : Except ℕ ℕ) else .ok 42)
    (fun i => (.error i : Except ℕ ℕ)) 42 (fun i => i) (fun i => i)
    (fun i hi => by simp [hi]) (by norm_num) (fun i _ => rfl)
  exact ⟨t.1, t.2.1⟩

/-! ## Claim theorems for C6, C7, C8 -/

/-- C6: for every non-negative number of seconds, `formatTime` renders
"MM:SS" with both components zero-padded to two digits, minutes given by
natural division by 60 (unbounded, not wrapped) and seconds by the remainder
of the truncated (not rounded) integer part; in particular
`formatTime 185 = "03:05"`, `formatTime 59 = "00:59"`,
`formatTime 0 = "00:00"`, and minutes keep growing past 60. -/
theorem formatTime_renders_mm_ss :
    (formatTime 185 = "03:05" ∧ formatTime 59 = "00:59" ∧ formatTime 0 = "00:00" ∧
      formatTime 3725 = "62:05" ∧ formatTime 6000 = "100:00" ∧
      formatTime (371/2) = "03:05") ∧
    ∀ s : ℚ, 0 ≤ s →
      formatTime s =
        padStart (toString (⌊s⌋₊ / 60)) 2 '0' ++ ":" ++
          padStart (toString (⌊s⌋₊ % 60)) 2 '0' := by
  refine ⟨⟨?_, ?_, ?_, ?_, ?_, ?_⟩, formatTime_nonneg_eq⟩
  · rw [show (185:ℚ) = ((185:ℕ):ℚ) by norm_num, formatTime_nonneg_eq _ (by positivity),
      Nat.floor_natCast]
    decide
  · rw [show (59:ℚ) = ((59:ℕ):ℚ) by norm_num, formatTime_nonneg_eq _ (by positivity),
      Nat.floor_natCast]
    decide
  · rw [show (0:ℚ) = ((0:ℕ):ℚ) by norm_num, formatTime_nonneg_eq _ (by positivity),
      Nat.floor_natCast]
    decide
  · rw [show (3725:ℚ) = ((3725:ℕ):ℚ) by norm_num, formatTime_nonneg_eq _ (by positivity),
      Nat.floor_natCast]
    decide
  · rw [show (6000:ℚ) = ((6000:ℕ):ℚ) by norm_num, formatTime_nonneg_eq _ (by positivity),
      Nat.floor_natCast]
    decide
  · rw [formatTime_nonneg_eq _ (by positivity),
      show ⌊(371/2:ℚ)⌋₊ = 185 by rw [Nat.floor_eq_iff] <;> norm_num]
    decide

/-- Witness for C6's quantified part at the non-integral input 7/2 seconds. -/
theorem formatTime_renders_mm_ss_witness :
    formatTime (7/2) =
      padStart (toString (⌊(7/2:ℚ)⌋₊ / 60)) 2 '0' ++ ":" ++
        padStart (toString (⌊(7/2:ℚ)⌋₊ % 60)) 2 '0' :=
  formatTime_renders_mm_ss.2 (7/2) (by norm_num)

/-- C7: the overlay projection divides each box coordinate by 1000 (the CSS
percent values agree with the spec's normalized rectangle after the
percent-to-fraction conversion, corners included), the box
`[100,200,400,600]` lands on `(0.1, 0.2, 0.4, 0.6)`, multiplying the
normalized coordinates by 1000 recovers the original integers exactly, and
mapping the projection over a result list preserves order and count. -/
theorem overlay_projection_round_trip :
    (∀ b : Box2d,
      (overlayRect b).1 / 100 = (normalizedBox b).1 ∧
      (overlayRect b).2.1 / 100 = (normalizedBox b).2.1 ∧
      (overlayRect b).1 / 100 + (overlayRect b).2.2.1 / 100 = (normalizedBox b).2.2.1 ∧
      (overlayRect b).2.1 / 100 + (overlayRect b).2.2.2 / 100 = (normalizedBox b).2.2.2) ∧
    normalizedBox ⟨100, 200, 400, 600⟩ = (1/10, 2/10, 4/10, 6/10) ∧
    (∀ b : Box2d,
      scaleBack (normalizedBox b) = ((b.ymin : ℚ), (b.xmin : ℚ), (b.ymax : ℚ), (b.xmax : ℚ))) ∧
    ∀ (l : List Box2d) (i : ℕ),
      (l.map overlayRect).length = l.length ∧
      (l.map overlayRect)[i]? = (l[i]?).map overlayRect := by
  refine ⟨?_, by norm_num [normalizedBox, Prod.ext_iff], ?_, ?_⟩
  · intro b
    simp only [overlayRect, normalizedBox]
    refine ⟨by ring, by ring, by ring, by ring⟩
  · intro b
    simp only [scaleBack, normalizedBox]
    norm_num
  · intro l i
    exact ⟨List.length_map l overlayRect, List.getElem?_map overlayRect l i⟩

/-- C8: the camera acquisition tries the high-resolution constraints first,
falls back to the unconstrained request only when the first attempt fails,
and when both attempts fail the surfaced error is the one of the second
(unconstrained) attempt: the caller-visible error state is computed from the
basic attempt's error alone, whatever the first error was. -/
theorem startCamera_two_tier_negotiation {σ : Type} :
    (∀ (s : σ) (basic : Except JsError σ), negotiateStream (.ok s) basic = .ok s) ∧
    (∀ (e : JsError) (s : σ),
      negotiateStream (Except.error e) (.ok s) = (.ok s : Except JsError σ)) ∧
    (∀ e₁ e₂ : JsError,
      negotiateStream (Except.error e₁) (Except.error e₂) = (.error e₂ : Except JsError σ)) ∧
    (∀ e₁ e₂ : JsError,
      startCamera (Except.error e₁ : Except JsError σ) (Except.error e₂) =
        .error (classifyCameraError e₂)) := by
  refine ⟨fun s basic => rfl, fun e s => rfl, fun e₁ e₂ => rfl, fun e₁ e₂ => rfl⟩

/-! ## `extractFramesFromVideo` (src/utils/mediaUtils.ts, lines 33-107)

The seek-capture loop: starting from `currentTime = 0` and `frameCount = 0`,
stop as soon as `currentTime > duration` or `frameCount >= maxFrames`,
otherwise capture a frame stamped `currentTime` and continue at
`currentTime + interval` (`interval = 3`, `maxFrames = 10`).  Only the
timestamps are modelled: the pixel payload of a captured frame is opaque to
every claim.  `remaining` is `maxFrames - frameCount`, so the source's
`frameCount >= maxFrames` stop condition is `remaining = 0`. -/

/-- The capture loop of `extractFramesFromVideo`: the timestamps captured
from time `t` on with `remaining` frames still allowed. -/
def captureLoop (duration : ℚ) : ℚ → ℕ → List ℚ
  | _, 0 => []
  | t, r + 1 => if duration < t then [] else t :: captureLoop duration (t + 3) r

/-- The timestamps `extractFramesFromVideo` produces for a video whose
metadata loaded with the given duration: interval 3 starting at 0, at most
10 frames. -/
def extractFrameTimestamps (duration : ℚ) : List ℚ :=
  captureLoop duration 0 10

theorem captureLoop_of_lt {duration t : ℚ} (h : duration < t) (r : ℕ) :
    captureLoop duration t r = [] := by
  cases r with
  | zero => rfl
  | succ r => simp [captureLoop, h]

/-- Closed form of the capture loop below the duration: the sampled times are
`t, t + 3, t + 6, ...`, capped both by the remaining budget and by the last
multiple of 3 that stays within the duration. -/
theorem captureLoop_eq (duration : ℚ) :
    ∀ (r : ℕ) (t : ℚ), t ≤ duration →
      captureLoop duration t r =
        (List.range (min r (⌊(duration - t) / 3⌋₊ + 1))).map (fun i : ℕ => t + 3 * (i : ℚ)) := by
  intro r
  induction r with
  | zero => intro t ht; simp [captureLoop]
  | succ r ih =>
    intro t ht
    rw [captureLoop, if_neg (not_lt.mpr ht)]
    by_cases h3 : t + 3 ≤ duration
    · have hfloor : ⌊(duration - t) / 3⌋₊ = ⌊(duration - (t + 3)) / 3⌋₊ + 1 := by
        rw [show (duration - t) / 3 = (duration - (t + 3)) / 3 + 1 by ring]
        exact Nat.floor_add_one (div_nonneg (by linarith) (by norm_num))
      rw [ih (t + 3) h3, hfloor, Nat.succ_min_succ, List.range_succ_eq_map,
        List.map_cons, List.map_map]
      refine congrArg₂ _ (by norm_num) (List.map_congr_left fun i _ => ?_)
      simp only [Function.comp_apply]
      push_cast
      ring
    · have hlt : duration < t + 3 := lt_of_not_le h3
      have hfloor : ⌊(duration - t) / 3⌋₊ = 0 := by
        rw [Nat.floor_eq_zero]
        rw [div_lt_one (by norm_num)]
        linarith
      rw [captureLoop_of_lt hlt, hfloor, show min (r + 1) (0 + 1) = 1 by omega,
        show List.range 1 = [0] from rfl]
      norm_num

/-- C1: for a video whose metadata loads with duration `D ≥ 0` and the fixed
policy `interval = 3, maxFrames = 10`, `extractFramesFromVideo` captures
exactly `min 10 (⌊D / 3⌋ + 1)` frames, and the frame at position `i`
(0-based) is stamped exactly `3 * i`: the timestamps are `0, 3, 6, ...` in
order. -/
theorem extractFrames_count_and_timestamps (D : ℚ) (hD : 0 ≤ D) :
    (extractFrameTimestamps D).length = min 10 (⌊D / 3⌋₊ + 1) ∧
    ∀ (i : ℕ) (h : i < (extractFrameTimestamps D).length),
      (extractFrameTimestamps D).get ⟨i, h⟩ = 3 * i := by
  have key : extractFrameTimestamps D =
      (List.range (min 10 (⌊D / 3⌋₊ + 1))).map (fun i : ℕ => (0:ℚ) + 3 * (i : ℚ)) := by
    rw [extractFrameTimestamps, captureLoop_eq D 10 0 hD, sub_zero]
  constructor
  · rw [key, List.length_map, List.length_range]
  · intro i h
    have h' : i < min 10 (⌊D / 3⌋₊ + 1) := by
      rw [key, List.length_map, List.length_range] at h
      exact h
    rw [List.get_of_eq key]
    simp

/-- Witness for C1 at `D = 7`: three frames, stamped 0, 3 and 6. -/
theorem extractFrames_count_and_timestamps_witness :
    (extractFrameTimestamps 7).length = min 10 (⌊(7:ℚ) / 3⌋₊ + 1) ∧
    ∀ (i : ℕ) (h : i < (extractFrameTimestamps 7).length),
      (extractFrameTimestamps 7).get ⟨i, h⟩ = 3 * i :=
  extractFrames_count_and_timestamps 7 (by norm_num)

/-- C9: for every loaded duration `D ≥ 0` the first captured frame is stamped
0 and is always produced; a zero-duration video yields exactly the one frame
stamped 0, never an empty frame set. -/
theorem extractFrames_first_frame_zero (D : ℚ) (hD : 0 ≤ D) :
    extractFrameTimestamps D ≠ [] ∧
    (extractFrameTimestamps D).head? = some 0 ∧
    (D = 0 → extractFrameTimestamps D = [0]) := by
  have key : extractFrameTimestamps D =
      (List.range (min 10 (⌊D / 3⌋₊ + 1))).map (fun i : ℕ => (0:ℚ) + 3 * (i : ℚ)) := by
    rw [extractFrameTimestamps, captureLoop_eq D 10 0 hD, sub_zero]
  obtain ⟨k, hk⟩ : ∃ k, min 10 (⌊D / 3⌋₊ + 1) = k + 1 := ⟨min 10 (⌊D / 3⌋₊ + 1) - 1, by omega⟩
  refine ⟨?_, ?_, ?_⟩
  · rw [key, hk]
    simp [List.range_succ_eq_map]
  · rw [key, hk, List.range_succ_eq_map]
    norm_num
  · intro h0
    rw [key, h0]
    rw [show (10 ⊓ (⌊(0:ℚ) / 3⌋₊ + 1)) = 1 by norm_num, show List.range 1 = [0] from rfl]
    norm_num

/-- Witness for C9 at the zero-duration video. -/
theorem extractFrames_first_frame_zero_witness :
    extractFrameTimestamps 0 ≠ [] ∧
    (extractFrameTimestamps 0).head? = some 0 ∧
    ((0:ℚ) = 0 → extractFrameTimestamps 0 = [0]) :=
  extractFrames_first_frame_zero 0 (le_refl 0)

/-! ## `GeminiService.analyzeVideoFrames` (src/services/geminiService.ts, 77-138)

The chat session's responses are modelled by their outcomes: `send i k` is
what the `k`-th invocation of `chat.sendMessage` for the frame at position
`i` yields (`result.text`, possibly absent), `sendFinal k` likewise for the
final-report request.  Each is wrapped in `withExponentialBackoff` with the
default budget, exactly as in the source.  Alongside the outcome the run
records its externally observable events. -/

/-- `VideoFrameAnalysis` of src/types.ts. -/
structure VideoFrameAnalysis where
  timestamp : String
  analysis : String
deriving DecidableEq

/-- `VideoAnalysisResult` of src/types.ts. -/
structure VideoAnalysisResult where
  frames : List VideoFrameAnalysis
  finalReport : String
deriving DecidableEq

/-- The externally observable events of one `analyzeVideoFrames` run: the
start of a frame's retry-wrapped inference, an `onFrameAnalyzed` callback,
and the final-report request issued after the loop. -/
inductive AnalysisEvent where
  | inferStart (index : ℕ)
  | frameAnalyzed (fa : VideoFrameAnalysis)
  | finalRequested
deriving DecidableEq

/-- Whether an event is an `onFrameAnalyzed` callback. -/
def isFrameAnalyzedEvent : AnalysisEvent → Bool
  | .frameAnalyzed _ => true
  | _ => false

/-- The sequential frame loop of `analyzeVideoFrames`: for each frame in
order, run the retry-wrapped send, replace a missing or empty text by
"No analysis provided.", append the entry and emit the callback; a frame
whose retries are exhausted rejects the whole run with that error. -/
def processFrames {ε : Type} (send : ℕ → ℕ → Except ε (Option String)) :
    List ℚ → ℕ → Except ε (List VideoFrameAnalysis) × List AnalysisEvent
  | [], _ => (.ok [], [])
  | t :: rest, i =>
    match (backoffRun (send i) 0 3 1000).1 with
    | .error e => (.error e, [.inferStart i])
    | .ok txt =>
      let fa : VideoFrameAnalysis :=
        { timestamp := formatTime t,
          analysis := textOrFallback txt "No analysis provided." }
      let p := processFrames send rest (i + 1)
      (p.1.map (fa :: ·), .inferStart i :: .frameAnalyzed fa :: p.2)

/-- `analyzeVideoFrames`: the frame loop, then the retry-wrapped final-report
request, with "Could not generate final report." replacing a missing or
empty report text. -/
def analyzeVideoFrames {ε : Type} (frames : List ℚ)
    (send : ℕ → ℕ → Except ε (Option String))
    (sendFinal : ℕ → Except ε (Option String)) :
    Except ε VideoAnalysisResult × List AnalysisEvent :=
  match processFrames send frames 0 with
  | (.error e, evs) => (.error e, evs)
  | (.ok fas, evs) =>
    match (backoffRun sendFinal 0 3 1000).1 with
    | .error e => (.error e, evs ++ [.finalRequested])
    | .ok txt =>
      (.ok { frames := fas,
             finalReport := textOrFallback txt "Could not generate final report." },
        evs ++ [.finalRequested])

theorem textOrFallback_ne_empty (t : Option String) {fb : String} (hfb : fb ≠ "") :
    textOrFallback t fb ≠ "" := by
  cases t with
  | none => exact hfb
  | some s =>
    rw [textOrFallback]
    split
    · exact hfb
    · assumption

theorem processFrames_nil {ε : Type} (send : ℕ → ℕ → Except ε (Option String)) (i : ℕ) :
    processFrames send [] i = (.ok [], []) := rfl

theorem processFrames_cons_error {ε : Type} {send : ℕ → ℕ → Except ε (Option String)}
    {i : ℕ} {e : ε} (h : (backoffRun (send i) 0 3 1000).1 = .error e) (t : ℚ) (rest : List ℚ) :
    processFrames send (t :: rest) i = (.error e, [.inferStart i]) := by
  rw [processFrames, h]

theorem processFrames_cons_ok {ε : Type} {send : ℕ → ℕ → Except ε (Option String)}
    {i : ℕ} {txt : Option String} (h : (backoffRun (send i) 0 3 1000).1 = .ok txt)
    (t : ℚ) (rest : List ℚ) :
    processFrames send (t :: rest) i =
      ((processFrames send rest (i + 1)).1.map
          (VideoFrameAnalysis.mk (formatTime t) (textOrFallback txt "No analysis provided.") :: ·),
        .inferStart i ::
          .frameAnalyzed
            (VideoFrameAnalysis.mk (formatTime t) (textOrFallback txt "No analysis provided.")) ::
          (processFrames send rest (i + 1)).2) := by
  rw [processFrames, h]

/-- Structure of a frame loop that ended in success: one entry per frame, one
`onFrameAnalyzed` event per frame, and no entry with an empty analysis
text. -/
theorem processFrames_ok_spec {ε : Type} (send : ℕ → ℕ → Except ε (Option String)) :
    ∀ (fs : List ℚ) (i : ℕ) (fas : List VideoFrameAnalysis) (evs : List AnalysisEvent),
      processFrames send fs i = (.ok fas, evs) →
      fas.length = fs.length ∧
      evs.countP isFrameAnalyzedEvent = fs.length ∧
      ∀ fa ∈ fas, fa.analysis ≠ "" := by
  intro fs
  induction fs with
  | nil =>
    intro i fas evs h
    rw [processFrames_nil] at h
    obtain ⟨h1, h2⟩ := Prod.mk.injEq .. ▸ h
    cases h1
    cases h2
    exact ⟨rfl, rfl, by intro fa hfa; cases hfa⟩
  | cons t rest ih =>
    intro i fas evs h
    cases hbr : (backoffRun (send i) 0 3 1000).1 with
    | error e =>
      rw [processFrames_cons_error hbr] at h
      simp only [Prod.mk.injEq] at h
      exact absurd h.1 (by simp)
    | ok txt =>
      rw [processFrames_cons_ok hbr] at h
      simp only [Prod.mk.injEq] at h
      obtain ⟨h1, h2⟩ := h
      cases hp : (processFrames send rest (i + 1)).1 with
      | error e => rw [hp] at h1; exact absurd h1 (by simp [Except.map])
      | ok fas' =>
        rw [hp] at h1
        simp only [Except.map, Except.ok.injEq] at h1
        have hrest : processFrames send rest (i + 1) =
            (.ok fas', (processFrames send rest (i + 1)).2) := by
          rw [← hp]
        obtain ⟨l1, l2, l3⟩ := ih (i + 1) fas' (processFrames send rest (i + 1)).2 hrest
        subst h1
        refine ⟨by simp [l1], ?_, ?_⟩
        · rw [← h2]
          simp [List.countP_cons, isFrameAnalyzedEvent, l2]
        · intro fa hfa
          rcases List.mem_cons.mp hfa with hfa | hfa
          · subst hfa
            exact textOrFallback_ne_empty txt (by decide)
          · exact l3 fa hfa

/-- C3: on a three-frame sequence whose retry-wrapped inferences all succeed,
the run emits exactly three `onFrameAnalyzed` callbacks, in frame order, each
emitted before the next frame's inference starts, and all before the final
report is requested; if the middle frame's retries are exhausted,
`onFrameAnalyzed` has been called exactly once (for the first frame), the run
rejects with that frame's error, and no final report is requested; and on any
input a successful result has processed every frame — the final report is
only ever populated after all frames, never before. -/
theorem analyzeVideoFrames_sequential_events {ε : Type}
    (t₀ t₁ t₂ : ℚ) (send sendB : ℕ → ℕ → Except ε (Option String))
    (sendFinal : ℕ → Except ε (Option String))
    (txts : ℕ → Option String) (e : ε)
    (hok : ∀ i, i < 3 → (backoffRun (send i) 0 3 1000).1 = .ok (txts i))
    (hb0 : (backoffRun (sendB 0) 0 3 1000).1 = .ok (txts 0))
    (hb1 : (backoffRun (sendB 1) 0 3 1000).1 = .error e) :
    (analyzeVideoFrames [t₀, t₁, t₂] send sendFinal).2 =
      [.inferStart 0,
       .frameAnalyzed
         (VideoFrameAnalysis.mk (formatTime t₀) (textOrFallback (txts 0) "No analysis provided.")),
       .inferStart 1,
       .frameAnalyzed
         (VideoFrameAnalysis.mk (formatTime t₁) (textOrFallback (txts 1) "No analysis provided.")),
       .inferStart 2,
       .frameAnalyzed
         (VideoFrameAnalysis.mk (formatTime t₂) (textOrFallback (txts 2) "No analysis provided.")),
       .finalRequested] ∧
    analyzeVideoFrames [t₀, t₁, t₂] sendB sendFinal =
      (.error e,
        [.inferStart 0,
         .frameAnalyzed
           (VideoFrameAnalysis.mk (formatTime t₀) (textOrFallback (txts 0) "No analysis provided.")),
         .inferStart 1]) ∧
    ∀ (fs : List ℚ) (s : ℕ → ℕ → Except ε (Option String))
      (sf : ℕ → Except ε (Option String)) (res : VideoAnalysisResult)
      (evs : List AnalysisEvent),
      analyzeVideoFrames fs s sf = (.ok res, evs) →
      res.frames.length = fs.length ∧
      evs.countP isFrameAnalyzedEvent = fs.length ∧
      evs.getLast? = some .finalRequested := by
  have hp : processFrames send [t₀, t₁, t₂] 0 =
      (.ok
        [VideoFrameAnalysis.mk (formatTime t₀) (textOrFallback (txts 0) "No analysis provided."),
         VideoFrameAnalysis.mk (formatTime t₁) (textOrFallback (txts 1) "No analysis provided."),
         VideoFrameAnalysis.mk (formatTime t₂) (textOrFallback (txts 2) "No analysis provided.")],
        [.inferStart 0,
         .frameAnalyzed
           (VideoFrameAnalysis.mk (formatTime t₀) (textOrFallback (txts 0) "No analysis provided.")),
         .inferStart 1,
         .frameAnalyzed
           (VideoFrameAnalysis.mk (formatTime t₁) (textOrFallback (txts 1) "No analysis provided.")),
         .inferStart 2,
         .frameAnalyzed
           (VideoFrameAnalysis.mk (formatTime t₂)
             (textOrFallback (txts 2) "No analysis provided."))]) := by
    simp [processFrames_cons_ok (hok 0 (by norm_num)),
      processFrames_cons_ok (hok 1 (by norm_num)),
      processFrames_cons_ok (hok 2 (by norm_num)), processFrames_nil, Except.map]
  refine ⟨?_, ?_, ?_⟩
  · cases hf : (backoffRun sendFinal 0 3 1000).1 with
    | error e' => simp [analyzeVideoFrames, hp, hf]
    | ok txt => simp [analyzeVideoFrames, hp, hf]
  · have hp' : processFrames sendB [t₀, t₁, t₂] 0 =
        (.error e,
          [.inferStart 0,
           .frameAnalyzed
             (VideoFrameAnalysis.mk (formatTime t₀)
               (textOrFallback (txts 0) "No analysis provided.")),
           .inferStart 1]) := by
      simp [processFrames_cons_ok hb0, processFrames_cons_error hb1, Except.map]
    simp [analyzeVideoFrames, hp']
  · intro fs s sf res evs h
    rcases hq : processFrames s fs 0 with ⟨pr, pevs⟩
    simp only [analyzeVideoFrames] at h
    rw [hq] at h
    cases pr with
    | error e' => simp at h
    | ok fas =>
      cases hr : (backoffRun sf 0 3 1000).1 with
      | error e' => rw [hr] at h; simp at h
      | ok txt =>
        rw [hr] at h
        simp only [Prod.mk.injEq, Except.ok.injEq] at h
        obtain ⟨hres, hevs⟩ := h
        obtain ⟨l1, l2, _⟩ := processFrames_ok_spec s fs 0 fas pevs hq
        subst hres
        subst hevs
        refine ⟨l1, ?_, List.getLast?_concat pevs⟩
        simp [List.countP_append, l2, isFrameAnalyzedEvent]

/-- Witness for C3 with concrete sessions over `ε = ℕ`: one whose
retry-wrapped frame inferences all yield "s", one whose second frame fails
every attempt with error 7, at the frame times 0, 3 and 6. -/
theorem analyzeVideoFrames_sequential_events_witness :
    (analyzeVideoFrames [(0:ℚ), 3, 6] (fun _ _ => (.ok (some "s") : Except ℕ (Option String)))
        (fun _ => .ok (some "r"))).2 =
      [.inferStart 0,
       .frameAnalyzed
         (VideoFrameAnalysis.mk (formatTime 0) (textOrFallback (some "s") "No analysis provided.")),
       .inferStart 1,
       .frameAnalyzed
         (VideoFrameAnalysis.mk (formatTime 3) (textOrFallback (some "s") "No analysis provided.")),
       .inferStart 2,
       .frameAnalyzed
         (VideoFrameAnalysis.mk (formatTime 6) (textOrFallback (some "s") "No analysis provided.")),
       .finalRequested] ∧
    analyzeVideoFrames [(0:ℚ), 3, 6]
        (fun i _ => if i = 1 then (.error 7 : Except ℕ (Option String)) else .ok (some "s"))
        (fun _ => .ok (some "r")) =
      (.error 7,
        [.inferStart 0,
         .frameAnalyzed
           (VideoFrameAnalysis.mk (formatTime 0) (textOrFallback (some "s") "No analysis provided.")),
         .inferStart 1]) := by
  have t := analyzeVideoFrames_sequential_events 0 3 6
    (fun _ _ => (.ok (some "s") : Except ℕ (Option String)))
    (fun i _ => if i = 1 then .error 7 else .ok (some "s"))
    (fun _ => .ok (some "r")) (fun _ => some "s") 7
    (fun i _ => rfl) rfl rfl
  exact ⟨t.1, t.2.1⟩

/-- C10: in every successful sequential-analysis result no per-frame analysis
text and no final report is the empty string: a missing or empty model text
is replaced by "No analysis provided." per frame and by "Could not generate
final report." for the report, and an empty final-report text does not make
the run fail. -/
theorem analyzeVideoFrames_fallback_nonempty {ε : Type} :
    (textOrFallback none "No analysis provided." = "No analysis provided." ∧
      textOrFallback (some "") "No analysis provided." = "No analysis provided." ∧
      textOrFallback none "Could not generate final report." =
        "Could not generate final report." ∧
      textOrFallback (some "") "Could not generate final report." =
        "Could not generate final report.") ∧
    (∀ (fs : List ℚ) (send : ℕ → ℕ → Except ε (Option String))
       (sf : ℕ → Except ε (Option String)) (res : VideoAnalysisResult)
       (evs : List AnalysisEvent),
       analyzeVideoFrames fs send sf = (.ok res, evs) →
       (∀ fa ∈ res.frames, fa.analysis ≠ "") ∧ res.finalReport ≠ "") ∧
    ∀ (fs : List ℚ) (send : ℕ → ℕ → Except ε (Option String))
      (sf : ℕ → Except ε (Option String)) (fas : List VideoFrameAnalysis)
      (evs : List AnalysisEvent),
      processFrames send fs 0 = (.ok fas, evs) →
      (backoffRun sf 0 3 1000).1 = .ok (some "") →
      analyzeVideoFrames fs send sf =
        (.ok (VideoAnalysisResult.mk fas "Could not generate final report."),
          evs ++ [.finalRequested]) := by
  refine ⟨by decide, ?_, ?_⟩
  · intro fs send sf res evs h
    rcases hq : processFrames send fs 0 with ⟨pr, pevs⟩
    simp only [analyzeVideoFrames] at h
    rw [hq] at h
    cases pr with
    | error e' => simp at h
    | ok fas =>
      cases hr : (backoffRun sf 0 3 1000).1 with
      | error e' => rw [hr] at h; simp at h
      | ok txt =>
        rw [hr] at h
        simp only [Prod.mk.injEq, Except.ok.injEq] at h
        obtain ⟨hres, _⟩ := h
        obtain ⟨_, _, l3⟩ := processFrames_ok_spec send fs 0 fas pevs hq
        subst hres
        exact ⟨l3, textOrFallback_ne_empty txt (by decide)⟩
  · intro fs send sf fas evs hq hsf
    simp only [analyzeVideoFrames]
    rw [hq, hsf]
    simp [textOrFallback]

/-- Witness for C10: a one-frame run over `ε = ℕ` whose frame text is "a" and
whose final-report attempt returns the empty string; the empty report falls
back to the fixed string without failing the run. -/
theorem analyzeVideoFrames_fallback_nonempty_witness :
    (∀ fa ∈ (VideoAnalysisResult.mk [VideoFrameAnalysis.mk (formatTime 0) "a"]
        "Could not generate final report.").frames, fa.analysis ≠ "") ∧
      (VideoAnalysisResult.mk [VideoFrameAnalysis.mk (formatTime 0) "a"]
        "Could not generate final report.").finalReport ≠ "" :=
  analyzeVideoFrames_fallback_nonempty.2.1 [(0:ℚ)]
    (fun _ _ => (.ok (some "a") : Except ℕ (Option String)))
    (fun _ => .ok (some ""))
    (VideoAnalysisResult.mk [VideoFrameAnalysis.mk (formatTime 0) "a"]
      "Could not generate final report.")
    [.inferStart 0, .frameAnalyzed (VideoFrameAnalysis.mk (formatTime 0) "a"), .finalRequested]
    (by
      have hp : processFrames (fun _ _ => (.ok (some "a") : Except ℕ (Option String))) [(0:ℚ)] 0 =
          (.ok [VideoFrameAnalysis.mk (formatTime 0) "a"],
            [.inferStart 0, .frameAnalyzed (VideoFrameAnalysis.mk (formatTime 0) "a")]) := by
        simp [@processFrames_cons_ok ℕ (fun _ _ => (.ok (some "a") : Except ℕ (Option String)))
            0 (some "a") rfl 0 [],
          processFrames_nil, Except.map, textOrFallback]
      simp [analyzeVideoFrames, hp,
        show (backoffRun (fun _ => (.ok (some "") : Except ℕ (Option String))) 0 3 1000).1 =
          .ok (some "") from rfl,
        textOrFallback])

/-! ## `GeminiService.analyzeImage` (src/services/geminiService.ts, 23-72)

The only runtime check the source performs on receipt is
`if (!response.text) throw new Error("No response from Gemini")`; the
returned value is `JSON.parse(response.text)` under a compile-time-only
TypeScript type assertion (`as ImageAnalysisResult`), which is erased at
runtime.  A response is therefore modelled by what its text parses to — a
record whose `confidence` is an arbitrary string, since no runtime
constraint exists — or by the absence of a usable text (an undefined or
empty `response.text`, both falsy).  The declared `responseSchema` is part
of the outbound request, not a check performed on the reply. -/

/-- A detected object as it exists at runtime after `JSON.parse`: `name` and
`confidence` are plain strings (the TypeScript union type is erased) and
`box_2d` is a list of integers. -/
structure RawDetectedObject where
  name : String
  confidence : String
  box_2d : List ℤ
deriving DecidableEq

/-- The parsed payload of a still-image response. -/
structure RawImageResult where
  objects : List RawDetectedObject
  narrative : String
deriving DecidableEq

/-- A model response as `analyzeImage` inspects it. -/
inductive GenResponse where
  | noText
  | withText (payload : RawImageResult)
deriving DecidableEq

/-- One attempt of `analyzeImage`'s wrapped operation: throw on a missing
text, otherwise return the parsed payload unchanged — the source performs no
schema validation on receipt. -/
def analyzeImageOnce (resp : GenResponse) : Except String RawImageResult :=
  match resp with
  | .noText => .error "No response from Gemini"
  | .withText payload => .ok payload

/-- `analyzeImage`: the attempt, wrapped in `withExponentialBackoff` with the
default budget; `resp k` is the response of the `k`-th attempt. -/
def analyzeImage (resp : ℕ → GenResponse) : Except String RawImageResult :=
  (backoffRun (fun k => analyzeImageOnce (resp k)) 0 3 1000).1

/-- C5 counterexample: a response whose text parses with
`confidence = "VeryHigh"` — outside {High, Medium, Low} — is returned by
`analyzeImage` as a success, the out-of-enum confidence kept verbatim in the
result: no error of any kind is raised for it. -/
theorem analyzeImage_accepts_very_high :
    analyzeImage (fun _ => .withText
        (RawImageResult.mk [RawDetectedObject.mk "cat" "VeryHigh" [100, 200, 400, 600]] "a cat")) =
      .ok (RawImageResult.mk [RawDetectedObject.mk "cat" "VeryHigh" [100, 200, 400, 600]] "a cat") ∧
    (RawImageResult.mk [RawDetectedObject.mk "cat" "VeryHigh" [100, 200, 400, 600]]
        "a cat").objects.head?.map RawDetectedObject.confidence = some "VeryHigh" := by
  exact ⟨rfl, rfl⟩

/-- C5 amended: `analyzeImage` performs no client-side schema validation on
receipt: every parsed payload is returned unchanged (whatever its
`confidence` holds), and the only receipt check is that the response text is
present and non-empty, whose failure raises "No response from Gemini" — on
every attempt, so the retry-wrapped call fails with that same error. -/
theorem analyzeImage_no_schema_validation :
    (∀ p : RawImageResult, analyzeImageOnce (.withText p) = .ok p) ∧
    analyzeImageOnce .noText = .error "No response from Gemini" ∧
    (∀ p : RawImageResult, analyzeImage (fun _ => .withText p) = .ok p) ∧
    analyzeImage (fun _ => .noText) = .error "No response from Gemini" := by
  exact ⟨fun p => rfl, rfl, fun p => rfl, rfl⟩

/-! ## Colour assignment for detected objects

`ImageAnalyzer.tsx` (lines 61-94) assigns colours by object *name*: building
`aggregatedObjects`, each name not yet seen is entered into `nameColorMap`
with index `colorCounter % BOX_COLORS.length` (`colorCounter` counts the
distinct names entered so far), and the overlay looks the colour up by the
object's name (`aggregatedObjects.find(a => a.name === obj.name)?.colorIndex || 0`)
in an 8-colour palette.  The `WebcamAnalyzer` overlay
(src/unnamed/part_000, lines 210-240) instead paints the `i`-th rendered
object `BOX_COLORS[i % BOX_COLORS.length]` from its own 7-colour palette —
indexed by render position, not by name. -/

/-- The 8-colour `BOX_COLORS` palette of `ImageAnalyzer.tsx`. -/
def boxColorsImage : List String :=
  ["#ef4444", "#f59e0b", "#10b981", "#3b82f6", "#8b5cf6", "#ec4899", "#06b6d4", "#f97316"]

/-- The 7-colour `BOX_COLORS` palette of the `WebcamAnalyzer` component. -/
def boxColorsWebcam : List String :=
  ["#ef4444", "#f59e0b", "#10b981", "#3b82f6", "#8b5cf6", "#ec4899", "#06b6d4"]

/-- The `nameColorMap` built while aggregating the detected objects' names in
order: a name not yet mapped is appended with colour index
`colorCounter % BOX_COLORS.length`, where `colorCounter` equals the number of
distinct names mapped so far, the map's size. -/
def nameColorMap (names : List String) : List (String × ℕ) :=
  names.foldl
    (fun m n =>
      if (m.find? (fun p => p.1 = n)).isSome then m
      else m ++ [(n, m.length % boxColorsImage.length)]) []

/-- The JavaScript `x || 0` applied to the looked-up colour index (0 and
`undefined` are both falsy and both give 0, so the fallback changes nothing
for a mapped name). -/
def indexOrZero : Option ℕ → ℕ
  | none => 0
  | some k => if k = 0 then 0 else k

/-- The colour index the `ImageAnalyzer` overlay uses for an object with the
given name. -/
def colorIndexOfName (names : List String) (n : String) : ℕ :=
  indexOrZero (((nameColorMap names).find? (fun p => p.1 = n)).map Prod.snd)

/-- The colour the `ImageAnalyzer` overlay paints an object with the given
name. -/
def overlayColorImage (names : List String) (n : String) : String :=
  boxColorsImage.getD (colorIndexOfName names n) ""

/-- The colour the `WebcamAnalyzer` overlay paints the object at render
position `i`. -/
def overlayColorWebcam (i : ℕ) : String :=
  boxColorsWebcam.getD (i % boxColorsWebcam.length) ""

/-- The distinct names in first-occurrence order (the order in which
`nameColorMap` enters them). -/
def firstOccurrences (names : List String) : List String :=
  names.foldl (fun acc n => if n ∈ acc then acc else acc ++ [n]) []

/-- The 0-based rank of a name's first occurrence in a list. -/
def firstRank (n : String) : List String → ℕ
  | [] => 0
  | m :: rest => if m = n then 0 else firstRank n rest + 1

/-- The map that pairs the distinct names, in order from `start`, with their
cyclic colour indices: the reference shape `nameColorMap` is shown to take. -/
def buildMap (start : ℕ) : List String → List (String × ℕ)
  | [] => []
  | n :: rest => (n, start % 8) :: buildMap (start + 1) rest

theorem buildMap_keys (s : ℕ) (ds : List String) :
    (buildMap s ds).map Prod.fst = ds := by
  induction ds generalizing s with
  | nil => rfl
  | cons d rest ih => simp [buildMap, ih]

theorem buildMap_length (s : ℕ) (ds : List String) :
    (buildMap s ds).length = ds.length := by
  induction ds generalizing s with
  | nil => rfl
  | cons d rest ih => simp [buildMap, ih]

theorem buildMap_append (s : ℕ) (ds : List String) (n : String) :
    buildMap s (ds ++ [n]) = buildMap s ds ++ [(n, (s + ds.length) % 8)] := by
  induction ds generalizing s with
  | nil => simp [buildMap]
  | cons d rest ih =>
    have h : s + 1 + rest.length = s + (rest.length + 1) := by omega
    simp [buildMap, ih, h]

theorem find?_buildMap {ds : List String} {n : String} (hn : n ∈ ds) (s : ℕ) :
    (buildMap s ds).find? (fun p => p.1 = n) = some (n, (s + firstRank n ds) % 8) := by
  induction ds generalizing s with
  | nil => cases hn
  | cons d rest ih =>
    by_cases hdn : d = n
    · subst hdn
      simp [buildMap, List.find?, firstRank]
    · have hmem : n ∈ rest := by
        rcases List.mem_cons.mp hn with h | h
        · exact absurd h.symm hdn
        · exact h
      have hstep : (buildMap (s + 1) rest).find? (fun p => p.1 = n) =
          some (n, (s + 1 + firstRank n rest) % 8) := ih hmem (s + 1)
      have harith : s + 1 + firstRank n rest = s + (firstRank n rest + 1) := by omega
      simp [buildMap, List.find?, hdn, firstRank, hstep, harith]

theorem find?_buildMap_isSome_iff (s : ℕ) (ds : List String) (n : String) :
    ((buildMap s ds).find? (fun p => p.1 = n)).isSome = true ↔ n ∈ ds := by
  rw [List.find?_isSome]
  constructor
  · rintro ⟨p, hp, hpn⟩
    have : p.1 ∈ (buildMap s ds).map Prod.fst := List.mem_map_of_mem Prod.fst hp
    rw [buildMap_keys] at this
    simpa [of_decide_eq_true hpn] using this
  · intro hmem
    exact ⟨(n, (s + firstRank n ds) % 8), List.mem_of_find?_eq_some (find?_buildMap hmem s),
      by simp⟩

/-- The aggregation fold preserves the `buildMap` shape: starting from the
map of the already-entered distinct names `ds` (no duplicates), folding the
remaining names yields the map of `ds` extended by the new names in
first-occurrence order, still without duplicates. -/
theorem nameColorMap_fold_corr :
    ∀ (l ds : List String), ds.Nodup →
      (l.foldl
          (fun m n =>
            if (m.find? (fun p => p.1 = n)).isSome then m
            else m ++ [(n, m.length % boxColorsImage.length)]) (buildMap 0 ds) =
        buildMap 0 (l.foldl (fun acc n => if n ∈ acc then acc else acc ++ [n]) ds)) ∧
      (l.foldl (fun acc n => if n ∈ acc then acc else acc ++ [n]) ds).Nodup := by
  intro l
  induction l with
  | nil => exact fun ds hnd => ⟨rfl, hnd⟩
  | cons n rest ih =>
    intro ds hnd
    by_cases hmem : n ∈ ds
    · have hfind : ((buildMap 0 ds).find? (fun p => p.1 = n)).isSome = true :=
        (find?_buildMap_isSome_iff 0 ds n).mpr hmem
      simpa [List.foldl_cons, hfind, hmem] using ih ds hnd
    · have hfind : ((buildMap 0 ds).find? (fun p => p.1 = n)).isSome = false := by
        rw [Bool.eq_false_iff]
        intro hcon
        exact hmem ((find?_buildMap_isSome_iff 0 ds n).mp hcon)
      have hnd' : (ds ++ [n]).Nodup := by simp [List.nodup_append, hmem, hnd]
      have hext : buildMap 0 ds ++ [(n, (buildMap 0 ds).length % boxColorsImage.length)] =
          buildMap 0 (ds ++ [n]) := by
        rw [buildMap_append, buildMap_length]
        simp [boxColorsImage]
      simpa [List.foldl_cons, hfind, hmem, hext] using ih (ds ++ [n]) hnd'

theorem nameColorMap_eq_buildMap (names : List String) :
    nameColorMap names = buildMap 0 (firstOccurrences names) :=
  (nameColorMap_fold_corr names [] List.nodup_nil).1

theorem mem_firstOccurrences_fold :
    ∀ (l ds : List String) (n : String), n ∈ ds ∨ n ∈ l →
      n ∈ l.foldl (fun acc m => if m ∈ acc then acc else acc ++ [m]) ds := by
  intro l
  induction l with
  | nil =>
    intro ds n h
    rcases h with h | h
    · exact h
    · cases h
  | cons m rest ih =>
    intro ds n h
    have hsub : ds ⊆ (if m ∈ ds then ds else ds ++ [m]) := by
      split
      · exact fun x hx => hx
      · exact fun x hx => List.mem_append_left _ hx
    have hm : m ∈ (if m ∈ ds then ds else ds ++ [m]) := by
      split
      · assumption
      · simp
    rw [List.foldl_cons]
    rcases h with h | h
    · exact ih _ n (Or.inl (hsub h))
    · rcases List.mem_cons.mp h with h | h
      · exact ih _ n (Or.inl (h ▸ hm))
      · exact ih _ n (Or.inr h)

theorem mem_firstOccurrences {names : List String} {n : String} (h : n ∈ names) :
    n ∈ firstOccurrences names :=
  mem_firstOccurrences_fold names [] n (Or.inr h)

theorem indexOrZero_some (k : ℕ) : indexOrZero (some k) = k := by
  rw [indexOrZero]
  split
  · omega
  · rfl

/-- The colour index of a detected name is its first-occurrence rank among
the distinct names, taken cyclically modulo the palette size 8. -/
theorem colorIndexOfName_eq_rank {names : List String} {n : String} (h : n ∈ names) :
    colorIndexOfName names n = firstRank n (firstOccurrences names) % 8 := by
  rw [colorIndexOfName, nameColorMap_eq_buildMap,
    find?_buildMap (mem_firstOccurrences h) 0]
  simp [indexOrZero_some]

/-- C4 counterexample: the claim covers the `WebcamAnalyzer` overlay too, but
that overlay assigns colours by render position: for the detected objects
`[cat, dog, cat]` the two "cat" instances sit at positions 0 and 2 and are
painted different colours. -/
theorem webcam_same_name_different_colors :
    (["cat", "dog", "cat"] : List String)[0]? = (["cat", "dog", "cat"] : List String)[2]? ∧
    overlayColorWebcam 0 = "#ef4444" ∧
    overlayColorWebcam 2 = "#10b981" ∧
    overlayColorWebcam 0 ≠ overlayColorWebcam 2 := by decide

/-- C4 amended: in the `ImageAnalyzer` summary and overlay, colour tokens are
a function of the object's name, so instances with the same name always share
one token; distinct names receive tokens in first-occurrence order,
cyclically modulo the palette size 8, so the 9th distinct name reuses token
index 0; for `[cat, dog, cat]` both "cat" instances share token 0 while
"dog" gets the distinct token 1.  The `WebcamAnalyzer` overlay instead
paints the object at render position `i` with `BOX_COLORS[i % 7]` — indexed
by position, so same-name instances there need not share a token. -/
theorem color_assignment_by_name :
    (∀ (names : List String) (i j : ℕ) (hi : i < names.length) (hj : j < names.length),
      names.get ⟨i, hi⟩ = names.get ⟨j, hj⟩ →
      overlayColorImage names (names.get ⟨i, hi⟩) =
        overlayColorImage names (names.get ⟨j, hj⟩)) ∧
    (∀ (names : List String) (n : String), n ∈ names →
      colorIndexOfName names n = firstRank n (firstOccurrences names) % 8) ∧
    (colorIndexOfName ["cat", "dog", "cat"] "cat" = 0 ∧
      colorIndexOfName ["cat", "dog", "cat"] "dog" = 1 ∧
      overlayColorImage ["cat", "dog", "cat"] "cat" ≠
        overlayColorImage ["cat", "dog", "cat"] "dog") ∧
    colorIndexOfName ["n1", "n2", "n3", "n4", "n5", "n6", "n7", "n8", "n9"] "n9" = 0 ∧
    ∀ i : ℕ, overlayColorWebcam i = boxColorsWebcam.getD (i % 7) "" := by
  refine ⟨?_, fun names n h => colorIndexOfName_eq_rank h, by decide, by decide, fun i => rfl⟩
  intro names i j hi hj hname
  rw [hname]

/-- Witness for C4's amended theorem on `[cat, dog, cat]`: the two "cat"
positions share a colour, and "cat"'s token index is its first-occurrence
rank modulo 8. -/
theorem color_assignment_by_name_witness :
    overlayColorImage ["cat", "dog", "cat"] (["cat", "dog", "cat"].get ⟨0, by decide⟩) =
      overlayColorImage ["cat", "dog", "cat"] (["cat", "dog", "cat"].get ⟨2, by decide⟩) ∧
    colorIndexOfName ["cat", "dog", "cat"] "cat" =
      firstRank "cat" (firstOccurrences ["cat", "dog", "cat"]) % 8 :=
  ⟨color_assignment_by_name.1 ["cat", "dog", "cat"] 0 2 (by decide) (by decide) (by decide),
    color_assignment_by_name.2.1 ["cat", "dog", "cat"] "cat" (by decide)⟩

end ImageAnalysis
